import Mathlib

/-!
Verification of the `denat` UDP peer-rendezvous client (src/client.py)
against its natural-language specification.

The Python source is shallowly embedded: Python strings become `List Char`,
addresses `(host, port)` become `Addr := List Char × Int`, sockets are
represented by their bound port, and the blocking I/O of each loop round is
an explicit environment value (`RecvEvent`, `RoundEnv`) consumed by a step
function.  Exceptions that propagate become explicit `fault` results, and
the unbounded retry loops take fuel / finite event traces, with "trace too
short to finish" reported as a separate `pending`/`stuck` outcome.
-/

/-- Python strings, embedded as lists of characters. -/
abbrev PyStr := List Char

/-- Shorthand turning a Lean string literal into the embedded representation. -/
def str (s : String) : PyStr := s.data

/-- `Addr = tuple[str, int]` from client.py line 11: a `(host, port)` pair. -/
abbrev Addr := PyStr × Int

/-- Embedding of Python's `s.split(sep)` for a single-character separator:
`pySplit sep s` cuts `s` at every occurrence of `sep`.  Like Python, the
empty string yields `[[]]` and separators at the ends yield empty fields. -/
def pySplit (sep : Char) : PyStr → List PyStr
  | [] => [[]]
  | c :: rest =>
    if c = sep then [] :: pySplit sep rest
    else
      match pySplit sep rest with
      | [] => [[c]]
      | g :: gs => (c :: g) :: gs

/-- Whitespace test used by Python's `int()` when stripping its argument. -/
def pyIsSpace (c : Char) : Bool := c.isWhitespace

/-- Strip leading and trailing whitespace (embedding of the implicit strip
performed by Python's `int()`). -/
def stripWs (cs : PyStr) : PyStr :=
  ((cs.dropWhile pyIsSpace).reverse.dropWhile pyIsSpace).reverse

/-- Tail of Python's digit-group grammar, with a flag recording whether the
previous character was an underscore: a sequence of digits in which a single
underscore may appear between two digits (`int("1_2")` is legal;
leading/trailing/doubled underscores are not). -/
def digitsTail : Bool → List Char → Bool
  | prevUnd, [] => !prevUnd
  | prevUnd, c :: rest =>
    if c = '_' then !prevUnd && digitsTail true rest
    else c.isDigit && digitsTail false rest

/-- A valid unsigned digit group for Python's `int()`: nonempty, starts with
a digit, underscores only between digits. -/
def isPyDigits : List Char → Bool
  | [] => false
  | c :: rest => c.isDigit && digitsTail false rest

/-- Numeric value of a digit group (underscores discarded). -/
def digitsVal (cs : List Char) : Nat :=
  (cs.filter (fun c => c ≠ '_')).foldl (fun a c => 10 * a + (c.toNat - 48)) 0

/-- Embedding of Python's `int(s)` on a decimal string: strip whitespace,
accept an optional sign, then a digit group; any other shape raises
`ValueError`, modelled as `none`. -/
def pyInt (cs0 : PyStr) : Option Int :=
  match stripWs cs0 with
  | [] => none
  | c :: rest =>
    if c = '-' then
      if isPyDigits rest then some (-(digitsVal rest : Int)) else none
    else if c = '+' then
      if isPyDigits rest then some (digitsVal rest : Int) else none
    else if isPyDigits (c :: rest) then some (digitsVal (c :: rest) : Int)
    else none

/-- `parse_addr` (client.py lines 21-25):
`host, port_string = addr_string.split(":")` then `int(port_string)`.
The two-name unpacking raises `ValueError` unless the split has exactly two
fields, i.e. unless the string contains exactly one colon; a failing `int`
also raises.  Both failures are modelled as `none`. -/
def parse_addr (addr_string : PyStr) : Option Addr :=
  match pySplit ':' addr_string with
  | [host, port_string] => (pyInt port_string).map (fun port => (host, port))
  | _ => none

/-- `parse_server_msg` (client.py lines 27-32): split the datagram on `;`
into exactly two fields (two-name unpacking), parse each with `parse_addr`,
returning `(our, peer)`.  Any failure raises, modelled as `none`. -/
def parse_server_msg (msg : PyStr) : Option (Addr × Addr) :=
  match pySplit ';' msg with
  | [our_s, peer_s] =>
    match parse_addr our_s, parse_addr peer_s with
    | some our, some peer => some (our, peer)
    | _, _ => none
  | _ => none






/-- `make_peer_req` wire payload (client.py line 18): the string
`JOIN#{our_id}@{peer_id}`, sent to `remote`. -/
def make_peer_req (our_id peer_id : PyStr) : PyStr :=
  str "JOIN#" ++ our_id ++ str "@" ++ peer_id

/-- `disconnect` wire payload (client.py line 87): `EXIT#{our_id}@{peer_id}`. -/
def exit_req (our_id peer_id : PyStr) : PyStr :=
  str "EXIT#" ++ our_id ++ str "@" ++ peer_id

/-- What one `select`+`recvfrom` round of blocking I/O yields: `none` when
`select` times out with nothing readable, `some (msg, sender)` when a
datagram arrives. -/
abbrev RecvEvent := Option (PyStr × Addr)

/-- The per-round wait bound of the discovery loop, in seconds
(client.py line 59: `select.select([s], [], [], 2)`). -/
def fetch_wait_seconds : Nat := 2

/-- Outcome of running `first_peer_fetch` against a finite trace of receive
events: `pending` when the trace ends before a datagram from `remote` is
accepted (the Python loop would still be running), `fault` when
`parse_server_msg` raises on the accepted datagram, `done peer` on success. -/
inductive FetchResult where
  | pending
  | fault
  | done (peer : Addr)
deriving DecidableEq

/-- `first_peer_fetch` (client.py lines 43-78), driven by a trace of receive
events, one per iteration of the unbounded `itertools.count()` loop.  Each
iteration first sends one `JOIN` datagram to `remote` (recorded in the first
component), then waits; an arriving datagram is accepted only when its
sender equals `remote`, otherwise the loop continues.  On acceptance the
message is decoded with `parse_server_msg` and the second (peer) half is
returned; the first ("our endpoint") half is only printed. -/
def first_peer_fetch (our_id peer_id : PyStr) (remote : Addr) :
    List RecvEvent → List (PyStr × Addr) × FetchResult
  | [] => ([], .pending)
  | ev :: rest =>
    match ev with
    | none =>
      let pr := first_peer_fetch our_id peer_id remote rest
      ((make_peer_req our_id peer_id, remote) :: pr.1, pr.2)
    | some (msg, sender) =>
      if sender = remote then
        ([(make_peer_req our_id peer_id, remote)],
          match parse_server_msg msg with
          | some (_our, peer) => .done peer
          | none => .fault)
      else
        let pr := first_peer_fetch our_id peer_id remote rest
        ((make_peer_req our_id peer_id, remote) :: pr.1, pr.2)

/-- Result of the `prepare_socket` bind loop: `bound p` when `s.bind`
succeeded on port `p`, `err e` when an `OSError` with `errno = e ≠ 48`
propagated, `nofuel` when the supplied fuel ran out before either (the
Python loop would still be retrying). -/
inductive BindOutcome where
  | bound (port : Nat)
  | err (errno : Nat)
  | nofuel
deriving DecidableEq

/-- The bind loop of `prepare_socket` (client.py lines 104-116), with the
OS modelled as `status : Nat → Option Nat` giving for each port the `errno`
`bind` raises there (`none` = bind succeeds).  `errno` 48 (`EADDRINUSE` on
the platform the source targets) is caught and the next port is tried;
any other `OSError` is re-raised. -/
def prepare_socket (status : Nat → Option Nat) : Nat → Nat → BindOutcome
  | 0, _ => .nofuel
  | fuel + 1, port =>
    match status port with
    | none => .bound port
    | some e => if e = 48 then prepare_socket status fuel (port + 1) else .err e

/-- The mutable state of one `main_loop` run (client.py lines 166-212):
the bound local port of the current socket `s`, the believed peer address
`peer`, the counters `error_clock` and `ok_clock`, and the three `Stats`
counters (`miss`/`got`/`other`). -/
structure LoopState where
  port : Nat
  peer : Addr
  error_clock : Nat
  ok_clock : Nat
  miss_counter : Nat
  got_counter : Nat
  other_counter : Nat
deriving DecidableEq

/-- Environment input consumed by one iteration of the `for i in range(100)`
loop: the OS bind table and fuel plus a discovery event trace (consulted
only when the round starts with `error_clock = 10` and rebinds), and the
outcome of this round's 150 ms wait for a reply. -/
structure RoundEnv where
  bindStatus : Nat → Option Nat
  bindFuel : Nat
  fetchEvents : List RecvEvent
  outcome : RecvEvent

/-- Result of running one round or a sequence of rounds: `ok st` = normal
continuation with state `st`, `fault` = an uncaught exception propagates out
of `main_loop`, `stuck` = an unbounded sub-loop (rebinding or re-discovery)
did not finish within the environment trace provided. -/
inductive StepResult where
  | ok (st : LoopState)
  | fault
  | stuck
deriving DecidableEq

/-- The recovery check at the top of each round (client.py lines 181-186):
if `error_clock == 10`, rebind via `prepare_socket(port + 1)`, re-run
`first_peer_fetch` once to refresh `peer`, and reset `error_clock` to 0;
otherwise the state passes through unchanged. -/
def recovery_phase (our_id peer_id : PyStr) (remote : Addr) (env : RoundEnv)
    (st : LoopState) : StepResult :=
  if st.error_clock = 10 then
    match prepare_socket env.bindStatus env.bindFuel (st.port + 1) with
    | .nofuel => .stuck
    | .err _ => .fault
    | .bound p =>
      match (first_peer_fetch our_id peer_id remote env.fetchEvents).2 with
      | .pending => .stuck
      | .fault => .fault
      | .done newPeer => .ok { st with port := p, peer := newPeer, error_clock := 0 }
  else .ok st

/-- Destination of the round's `ping` datagram (client.py line 189:
`s.sendto(b"ping", peer)`): always the current believed peer. -/
def ping_dest (st : LoopState) : Addr := st.peer

/-- The ping/wait/classify body of each round (client.py lines 189-207):
send `ping` to `peer`, wait up to 150 ms; classify the outcome.  A timeout
increments `error_clock` and the miss counter; a datagram from `peer`
resets `error_clock` and increments `ok_clock` and the got counter; a
datagram from `remote` is decoded with `parse_server_msg` (a decode failure
raises) and replaces `peer`, counting as other; anything else just counts
as other. -/
def ping_phase (remote : Addr) (outcome : RecvEvent) (st : LoopState) : StepResult :=
  match outcome with
  | none =>
    .ok { st with error_clock := st.error_clock + 1, miss_counter := st.miss_counter + 1 }
  | some (msg, sender) =>
    if sender = st.peer then
      .ok { st with error_clock := 0, ok_clock := st.ok_clock + 1,
                    got_counter := st.got_counter + 1 }
    else if sender = remote then
      match parse_server_msg msg with
      | none => .fault
      | some (_our, newPeer) =>
        .ok { st with peer := newPeer, other_counter := st.other_counter + 1 }
    else .ok { st with other_counter := st.other_counter + 1 }

/-- One full iteration of the keepalive loop: recovery check, then the
ping/wait/classify body. -/
def run_round (our_id peer_id : PyStr) (remote : Addr) (env : RoundEnv)
    (st : LoopState) : StepResult :=
  match recovery_phase our_id peer_id remote env st with
  | .ok st1 => ping_phase remote env.outcome st1
  | r => r

/-- Fold `run_round` over a list of round environments, stopping at the
first `fault` or `stuck`. -/
def run_rounds (our_id peer_id : PyStr) (remote : Addr) :
    List RoundEnv → LoopState → StepResult
  | [], st => .ok st
  | env :: rest, st =>
    match run_round our_id peer_id remote env st with
    | .ok st2 => run_rounds our_id peer_id remote rest st2
    | r => r

/-- Initial loop state after discovery succeeds: counters zeroed, socket on
`port`, believed peer as returned by `first_peer_fetch`. -/
def init_state (port : Nat) (peer : Addr) : LoopState :=
  { port := port, peer := peer, error_clock := 0, ok_clock := 0,
    miss_counter := 0, got_counter := 0, other_counter := 0 }

/-- `main_loop` (client.py lines 166-212): run `first_peer_fetch` once, then
exactly 100 keepalive rounds (`for i in range(100)`), threading the state. -/
def main_loop (our_id peer_id : PyStr) (remote : Addr) (port : Nat)
    (fetchEvents : List RecvEvent) (envs : List RoundEnv) : StepResult :=
  match (first_peer_fetch our_id peer_id remote fetchEvents).2 with
  | .pending => .stuck
  | .fault => .fault
  | .done peer => run_rounds our_id peer_id remote (envs.take 100) (init_state port peer)

/-- `disconnect` (client.py lines 80-89) as the list of datagrams it sends:
exactly one `EXIT` message to `remote`, after which it returns at once —
nothing is received or retried. -/
def disconnect (our_id peer_id : PyStr) (remote : Addr) : List (PyStr × Addr) :=
  [(exit_req our_id peer_id, remote)]

/-- Observable outcome of `main` (client.py lines 241-255) around the
`try`/`finally`: how `main_loop` ended, which datagrams the teardown sent,
and the local port of the socket they left from. -/
structure MainResult where
  loopResult : StepResult
  exitSends : List (PyStr × Addr)
  exitSrcPort : Nat
deriving DecidableEq

/-- The `try: main_loop(...) finally: disconnect(...)` of `main`
(client.py lines 241-255).  The `finally` clause runs `disconnect` exactly
once on every exit path — normal completion and uncaught exception alike.
The variable `s` in `main` is bound once at line 238 and never reassigned:
the rebinding inside `main_loop` (line 184) rebinds only `main_loop`'s
local name, so `disconnect` sends on the socket bound at startup, whose
port is `port0`. -/
def main_model (our_id peer_id : PyStr) (remote : Addr) (port0 : Nat)
    (fetchEvents : List RecvEvent) (envs : List RoundEnv) : MainResult :=
  { loopResult := main_loop our_id peer_id remote port0 fetchEvents envs
    exitSends := disconnect our_id peer_id remote
    exitSrcPort := port0 }

/-- Decimal digit character, `chr(48 + d)`. -/
def decChar (d : Nat) : Char := Char.ofNat (48 + d)

/-- Decimal digit string of a positive number, by fuelled division:
`natDecAux fuel n` is the usual big-endian digit list of `n` provided
`n ≤ fuel` (and `[]` for `n = 0`). -/
def natDecAux : Nat → Nat → List Char
  | 0, _ => []
  | fuel + 1, n => if n = 0 then [] else natDecAux fuel (n / 10) ++ [decChar (n % 10)]

/-- Python `str(n)` for a natural number. -/
def natDecimal (n : Nat) : PyStr := if n = 0 then ['0'] else natDecAux n n

/-- Python `str(i)` for an integer: a leading minus sign when negative. -/
def intDecimal (i : Int) : PyStr :=
  if i < 0 then '-' :: natDecimal i.natAbs else natDecimal i.toNat

/-- Modelled from the spec: the spec's `format(e)` serializer (§3, §8
round-trip property).  The repository has no standalone formatter — addresses
are only ever interpolated into f-strings as `{host}:{port}` — so the
serializer is taken from the spec's `"host:port"` wording, with the port
rendered in Python `str()` decimal notation. -/
def formatAddr (e : Addr) : PyStr := e.1 ++ ':' :: intDecimal e.2

/-- The facts needed about the characters produced by `natDecAux`. -/
def goodDigit (c : Char) : Prop :=
  c.isDigit = true ∧ c ≠ '_' ∧ c ≠ ':' ∧ c ≠ '-' ∧ c ≠ '+' ∧ pyIsSpace c = false

/-- Whether a receive event is a datagram whose sender is `remote` — the
acceptance test of the discovery loop (client.py line 64). -/
def fromRemote (remote : Addr) : RecvEvent → Bool
  | none => false
  | some (_, sender) => sender = remote

/-! ### Concrete environments used by the witnesses -/

/-- Introducer endpoint used in the concrete witness runs. -/
def remoteW : Addr := (str "s", 1)

/-- A server message whose decoded peer half is `("3.3.3.3", 4)`. -/
def srvMsgW : PyStr := str "1.1.1.1:2;3.3.3.3:4"

/-- Round environment of a miss round: the 150 ms wait times out. -/
def missEnvW : RoundEnv :=
  { bindStatus := fun _ => none, bindFuel := 0, fetchEvents := [], outcome := none }

/-- Round environment of a recovery round: every port is free, re-discovery
is answered at once by the introducer, and the round's wait then times out. -/
def recEnvW : RoundEnv :=
  { bindStatus := fun _ => none, bindFuel := 1,
    fetchEvents := [some (srvMsgW, remoteW)], outcome := none }

/-- Round environment of a hit round against peer `("p", 2)`. -/
def hitEnvW : RoundEnv :=
  { bindStatus := fun _ => none, bindFuel := 0, fetchEvents := [],
    outcome := some (str "x", (str "p", 2)) }

/-- Discovery trace of the concrete C10 run: the introducer replies at once
announcing peer `("2.2.2.2", 3)`. -/
def fetchW : List RecvEvent := [some (str "9.9.9.9:7;2.2.2.2:3", remoteW)]

/-- Hit round against the refreshed peer `("4.4.4.4", 5)`. -/
def hit2EnvW : RoundEnv :=
  { bindStatus := fun _ => none, bindFuel := 0, fetchEvents := [],
    outcome := some (str "x", (str "4.4.4.4", 5)) }

/-- Recovery round of the concrete C10 run: every port is free, the
re-discovery announces peer `("4.4.4.4", 5)`, and that peer answers the
round's ping. -/
def rebindEnvW : RoundEnv :=
  { bindStatus := fun _ => none, bindFuel := 1,
    fetchEvents := [some (str "9.9.9.9:7;4.4.4.4:5", remoteW)],
    outcome := some (str "x", (str "4.4.4.4", 5)) }

/-- A 100-round environment forcing one mid-run rebind: ten misses, the
recovery-and-hit round, then 89 hits. -/
def envsRebindW : List RoundEnv :=
  List.replicate 10 missEnvW ++ rebindEnvW :: List.replicate 89 hit2EnvW

/-! ### Helper lemmas about `pySplit` -/

theorem pySplit_ne_nil (sep : Char) (s : PyStr) : pySplit sep s ≠ [] := by
  induction s with
  | nil => simp [pySplit]
  | cons c rest _ =>
    by_cases hc : c = sep
    · simp [pySplit, hc]
    · simp only [pySplit, if_neg hc]
      cases hps : pySplit sep rest with
      | nil => simp
      | cons g gs => simp

theorem pySplit_not_mem (sep : Char) (s : PyStr) (h : sep ∉ s) : pySplit sep s = [s] := by
  induction s with
  | nil => rfl
  | cons c rest ih =>
    have hc : c ≠ sep := fun he => h (he ▸ List.mem_cons_self c rest)
    have hrest : sep ∉ rest := fun hm => h (List.mem_cons_of_mem _ hm)
    simp only [pySplit, if_neg hc, ih hrest]

theorem pySplit_exists_cons (sep : Char) (s : PyStr) :
    ∃ g gs, pySplit sep s = g :: gs := by
  cases h : pySplit sep s with
  | nil => exact absurd h (pySplit_ne_nil _ _)
  | cons g gs => exact ⟨g, gs, rfl⟩

theorem pySplit_append (sep : Char) (a b : PyStr) (h : sep ∉ a) :
    pySplit sep (a ++ sep :: b) = a :: pySplit sep b := by
  induction a with
  | nil => simp [pySplit]
  | cons c arest ih =>
    have hc : c ≠ sep := fun he => h (he ▸ List.mem_cons_self c arest)
    have ha : sep ∉ arest := fun hm => h (List.mem_cons_of_mem _ hm)
    show pySplit sep (c :: (arest ++ sep :: b)) = (c :: arest) :: pySplit sep b
    rw [pySplit, if_neg hc, ih ha]

theorem pySplit_eq_singleton (sep : Char) (s t : PyStr) (h : pySplit sep s = [t]) :
    s = t ∧ sep ∉ t := by
  induction s generalizing t with
  | nil =>
    have ht : t = [] := by
      have : ([[]] : List PyStr) = [t] := h
      exact (List.cons.injEq _ _ _ _ ▸ this).1.symm
    subst ht
    simp
  | cons c rest ih =>
    obtain ⟨g, gs, hps⟩ := pySplit_exists_cons sep rest
    by_cases hc : c = sep
    · subst hc
      rw [pySplit, if_pos rfl, hps] at h
      exact absurd (List.cons.injEq _ _ _ _ ▸ h).2 (hps ▸ pySplit_ne_nil _ rest)
    · rw [pySplit, if_neg hc, hps] at h
      obtain ⟨h1, h2⟩ := List.cons.injEq _ _ _ _ ▸ h
      have hg : pySplit sep rest = [g] := by rw [hps, h2]
      obtain ⟨rfl, hgmem⟩ := ih g hg
      subst h1
      refine ⟨rfl, ?_⟩
      intro hm
      rcases List.mem_cons.mp hm with he | hm2
      · exact hc he.symm
      · exact hgmem hm2

theorem pySplit_eq_pair (sep : Char) (s h t : PyStr) (heq : pySplit sep s = [h, t]) :
    s = h ++ sep :: t ∧ sep ∉ h ∧ sep ∉ t := by
  induction s generalizing h with
  | nil =>
    have : ([[]] : List PyStr) = [h, t] := heq
    simp at this
  | cons c rest ih =>
    obtain ⟨g, gs, hps⟩ := pySplit_exists_cons sep rest
    by_cases hc : c = sep
    · subst hc
      rw [pySplit, if_pos rfl] at heq
      obtain ⟨h1, h2⟩ := List.cons.injEq _ _ _ _ ▸ heq
      obtain ⟨rfl, hnt⟩ := pySplit_eq_singleton _ _ _ h2
      subst h1
      exact ⟨rfl, by simp, hnt⟩
    · rw [pySplit, if_neg hc, hps] at heq
      obtain ⟨h1, h2⟩ := List.cons.injEq _ _ _ _ ▸ heq
      have hg : pySplit sep rest = [g, t] := by rw [hps, h2]
      obtain ⟨hrest, hgmem, hnt⟩ := ih g hg
      subst h1
      refine ⟨by rw [hrest]; rfl, ?_, hnt⟩
      intro hm
      rcases List.mem_cons.mp hm with he | hm2
      · exact hc he.symm
      · exact hgmem hm2

/-- Full characterization of `parse_addr`: it succeeds with `(h, p)` exactly
when the input is `h ++ ":" ++ t` with no other colon anywhere and `int(t)`
parses to `p`. -/
theorem parse_addr_some_iff (s h : PyStr) (p : Int) :
    parse_addr s = some (h, p) ↔
      ':' ∉ h ∧ ∃ t, s = h ++ ':' :: t ∧ ':' ∉ t ∧ pyInt t = some p := by
  constructor
  · intro hp
    unfold parse_addr at hp
    obtain ⟨x, xs, hsp⟩ := pySplit_exists_cons ':' s
    rw [hsp] at hp
    rcases xs with _ | ⟨y, ys⟩
    · exact Option.noConfusion hp
    · rcases ys with _ | ⟨z, zs⟩
      · have hp' : Option.map (fun port => (x, port)) (pyInt y) = some (h, p) := hp
        obtain ⟨p', hpi, hval⟩ := Option.map_eq_some'.mp hp'
        obtain ⟨rfl, rfl⟩ := Prod.mk.injEq _ _ _ _ ▸ hval
        obtain ⟨hs, hnh, hnt⟩ := pySplit_eq_pair ':' s x y hsp
        exact ⟨hnh, y, hs, hnt, hpi⟩
      · exact Option.noConfusion hp
  · rintro ⟨hh, t, rfl, hnt, hpi⟩
    unfold parse_addr
    rw [pySplit_append _ _ _ hh, pySplit_not_mem _ _ hnt]
    simp [hpi]

/-! ### Helper lemmas about decimal digit strings -/



theorem goodDigit_decChar (d : Nat) (hd : d < 10) : goodDigit (decChar d) := by
  interval_cases d <;>
    exact ⟨by decide, by decide, by decide, by decide, by decide, by decide⟩

theorem decChar_toNat (d : Nat) (hd : d < 10) : (decChar d).toNat = 48 + d := by
  interval_cases d <;> decide

theorem natDecAux_good (fuel : Nat) :
    ∀ n, n ≤ fuel → ∀ c ∈ natDecAux fuel n, goodDigit c := by
  induction fuel with
  | zero => intro n _ c hc; simp [natDecAux] at hc
  | succ fuel ih =>
    intro n hle c hc
    by_cases hn : n = 0
    · simp [natDecAux, hn] at hc
    · rw [natDecAux, if_neg hn] at hc
      rcases List.mem_append.mp hc with h1 | h2
      · exact ih (n / 10) (by omega) c h1
      · have hce : c = decChar (n % 10) := by simpa using h2
        exact hce ▸ goodDigit_decChar _ (by omega)

theorem natDecAux_foldl (fuel : Nat) :
    ∀ n a, n ≤ fuel →
      (natDecAux fuel n).foldl (fun acc c => 10 * acc + (c.toNat - 48)) a
        = a * 10 ^ (natDecAux fuel n).length + n := by
  induction fuel with
  | zero => intro n a hle; interval_cases n; simp [natDecAux]
  | succ fuel ih =>
    intro n a hle
    by_cases hn : n = 0
    · simp [natDecAux, hn]
    · rw [natDecAux, if_neg hn, List.foldl_append, List.length_append,
        ih (n / 10) a (by omega)]
      simp only [List.foldl_cons, List.foldl_nil, List.length_cons, List.length_nil,
        Nat.zero_add]
      rw [decChar_toNat (n % 10) (by omega)]
      have h48 : 48 + n % 10 - 48 = n % 10 := by omega
      have key : 10 * (n / 10) + n % 10 = n := by omega
      rw [h48]
      calc 10 * (a * 10 ^ (natDecAux fuel (n / 10)).length + n / 10) + n % 10
          = a * (10 ^ (natDecAux fuel (n / 10)).length * 10)
              + (10 * (n / 10) + n % 10) := by ring
        _ = a * 10 ^ ((natDecAux fuel (n / 10)).length + 1) + n := by
              rw [key, pow_succ]

theorem natDecimal_good (n : Nat) : ∀ c ∈ natDecimal n, goodDigit c := by
  by_cases hn : n = 0
  · subst hn
    intro c hc
    have hce : c = '0' := by simpa [natDecimal] using hc
    exact hce ▸ ⟨by decide, by decide, by decide, by decide, by decide, by decide⟩
  · rw [natDecimal, if_neg hn]
    exact natDecAux_good n n le_rfl

theorem natDecimal_ne_nil (n : Nat) : natDecimal n ≠ [] := by
  by_cases hn : n = 0
  · simp [natDecimal, hn]
  · rw [natDecimal, if_neg hn]
    cases n with
    | zero => exact absurd rfl hn
    | succ m => simp [natDecAux, hn]

theorem isPyDigits_cons (c : Char) (rest : List Char) :
    isPyDigits (c :: rest) = (c.isDigit && digitsTail false rest) := rfl

theorem digitsTail_of_digits (cs : List Char)
    (h : ∀ c ∈ cs, c.isDigit = true ∧ c ≠ '_') : digitsTail false cs = true := by
  induction cs with
  | nil => rfl
  | cons c rest ih =>
    obtain ⟨hd, hu⟩ := h c (List.mem_cons_self c rest)
    have hrest := ih (fun x hx => h x (List.mem_cons_of_mem _ hx))
    rw [digitsTail, if_neg hu, hd, hrest]
    rfl

theorem isPyDigits_of (cs : List Char) (hne : cs ≠ [])
    (h : ∀ c ∈ cs, c.isDigit = true ∧ c ≠ '_') : isPyDigits cs = true := by
  cases cs with
  | nil => exact absurd rfl hne
  | cons c rest =>
    rw [isPyDigits_cons, (h c (List.mem_cons_self c rest)).1,
      digitsTail_of_digits rest (fun x hx => h x (List.mem_cons_of_mem _ hx))]
    rfl

theorem filter_no_underscore (cs : List Char) (h : ∀ c ∈ cs, c ≠ '_') :
    cs.filter (fun c => c ≠ '_') = cs := by
  refine List.filter_eq_self.mpr ?_
  intro a ha
  simp [h a ha]

theorem digitsVal_natDecimal (n : Nat) : digitsVal (natDecimal n) = n := by
  by_cases hn : n = 0
  · subst hn; decide
  · unfold digitsVal
    rw [filter_no_underscore _ (fun c hc => (natDecimal_good n c hc).2.1)]
    rw [natDecimal, if_neg hn, natDecAux_foldl n n 0 le_rfl]
    simp

theorem isPyDigits_natDecimal (n : Nat) : isPyDigits (natDecimal n) = true :=
  isPyDigits_of _ (natDecimal_ne_nil n)
    (fun c hc => ⟨(natDecimal_good n c hc).1, (natDecimal_good n c hc).2.1⟩)

theorem dropWhile_eq_self_of_none (p : Char → Bool) (cs : List Char)
    (h : ∀ c ∈ cs, p c = false) : cs.dropWhile p = cs := by
  cases cs with
  | nil => rfl
  | cons c rest =>
    rw [List.dropWhile_cons, h c (List.mem_cons_self c rest)]
    simp

theorem stripWs_eq_self (cs : List Char) (h : ∀ c ∈ cs, pyIsSpace c = false) :
    stripWs cs = cs := by
  unfold stripWs
  rw [dropWhile_eq_self_of_none _ _ h,
    dropWhile_eq_self_of_none _ _ (fun c hc => h c (List.mem_reverse.mp hc)),
    List.reverse_reverse]

/-- `pyInt` on an explicitly nonempty whitespace-free string, with the match
on the head exposed. -/
theorem pyInt_cons (c : Char) (rest : PyStr)
    (hns : ∀ x ∈ c :: rest, pyIsSpace x = false) :
    pyInt (c :: rest)
      = (if c = '-' then
           if isPyDigits rest then some (-(digitsVal rest : Int)) else none
         else if c = '+' then
           if isPyDigits rest then some (digitsVal rest : Int) else none
         else if isPyDigits (c :: rest) then some (digitsVal (c :: rest) : Int)
         else none) := by
  unfold pyInt
  rw [stripWs_eq_self _ hns]

theorem pyInt_natDecimal (n : Nat) : pyInt (natDecimal n) = some (n : Int) := by
  have hgood := natDecimal_good n
  cases hcs : natDecimal n with
  | nil => exact absurd hcs (natDecimal_ne_nil n)
  | cons c rest =>
    have hc := hgood c (hcs ▸ List.mem_cons_self c rest)
    rw [pyInt_cons c rest (fun x hx => (hgood x (hcs ▸ hx)).2.2.2.2.2),
      if_neg hc.2.2.2.1, if_neg hc.2.2.2.2.1, ← hcs, isPyDigits_natDecimal n]
    simp [digitsVal_natDecimal n]

theorem pyInt_intDecimal (p : Int) : pyInt (intDecimal p) = some p := by
  by_cases hp : p < 0
  · rw [intDecimal, if_pos hp]
    have hgood := natDecimal_good p.natAbs
    rw [pyInt_cons '-' (natDecimal p.natAbs) ?hns, if_pos rfl,
      isPyDigits_natDecimal p.natAbs]
    case hns =>
      intro x hx
      rcases List.mem_cons.mp hx with rfl | hx2
      · decide
      · exact (hgood x hx2).2.2.2.2.2
    simp only [if_true, digitsVal_natDecimal]
    congr 1
    omega
  · rw [intDecimal, if_neg hp, pyInt_natDecimal]
    congr 1
    omega

theorem colon_not_mem_natDecimal (n : Nat) : ':' ∉ natDecimal n := by
  intro hm
  exact (natDecimal_good n ':' hm).2.2.1 rfl

theorem colon_not_mem_intDecimal (p : Int) : ':' ∉ intDecimal p := by
  unfold intDecimal
  split
  · intro hm
    rcases List.mem_cons.mp hm with he | hm2
    · exact absurd he (by decide)
    · exact colon_not_mem_natDecimal _ hm2
  · exact colon_not_mem_natDecimal _





/-! ### Helper lemmas about the discovery loop -/

theorem fromRemote_false (remote : Addr) (msg : PyStr) (sender : Addr)
    (h : fromRemote remote (some (msg, sender)) = false) : sender ≠ remote := by
  simpa [fromRemote] using h

theorem first_peer_fetch_cons_none (our_id peer_id : PyStr) (remote : Addr)
    (rest : List RecvEvent) :
    first_peer_fetch our_id peer_id remote (none :: rest)
      = ((make_peer_req our_id peer_id, remote)
            :: (first_peer_fetch our_id peer_id remote rest).1,
         (first_peer_fetch our_id peer_id remote rest).2) := rfl

theorem first_peer_fetch_cons_other (our_id peer_id : PyStr) (remote : Addr)
    (msg : PyStr) (sender : Addr) (rest : List RecvEvent) (hne : sender ≠ remote) :
    first_peer_fetch our_id peer_id remote (some (msg, sender) :: rest)
      = ((make_peer_req our_id peer_id, remote)
            :: (first_peer_fetch our_id peer_id remote rest).1,
         (first_peer_fetch our_id peer_id remote rest).2) := by
  show (if sender = remote then _ else _) = _
  rw [if_neg hne]

theorem first_peer_fetch_cons_accept (our_id peer_id : PyStr) (remote : Addr)
    (msg : PyStr) (rest : List RecvEvent) :
    first_peer_fetch our_id peer_id remote (some (msg, remote) :: rest)
      = ([(make_peer_req our_id peer_id, remote)],
         match parse_server_msg msg with
         | some x => .done x.2
         | none => .fault) := by
  show (if remote = remote then _ else _) = _
  rw [if_pos rfl]
  rcases hp : parse_server_msg msg with _ | ⟨x, y⟩ <;> rfl

/-! ### Helper lemmas about the keepalive loop -/

theorem run_round_no_recovery (our_id peer_id : PyStr) (remote : Addr)
    (env : RoundEnv) (st : LoopState) (hne : st.error_clock ≠ 10) :
    run_round our_id peer_id remote env st = ping_phase remote env.outcome st := by
  unfold run_round recovery_phase
  rw [if_neg hne]

theorem ping_phase_none (remote : Addr) (st : LoopState) :
    ping_phase remote none st
      = .ok { st with error_clock := st.error_clock + 1,
                      miss_counter := st.miss_counter + 1 } := rfl

/-- Rounds that all time out accumulate `error_clock` and the miss counter
one per round and touch nothing else, as long as the streak stays at or
below the threshold of 10 (so no recovery check fires on the way). -/
theorem run_rounds_misses (our_id peer_id : PyStr) (remote : Addr)
    (envs : List RoundEnv) :
    ∀ st : LoopState, (∀ e ∈ envs, e.outcome = none) →
      st.error_clock + envs.length ≤ 10 →
      run_rounds our_id peer_id remote envs st
        = .ok { st with error_clock := st.error_clock + envs.length,
                        miss_counter := st.miss_counter + envs.length } := by
  induction envs with
  | nil =>
    intro st _ _
    simp [run_rounds]
  | cons env rest ih =>
    rintro ⟨port, peer, ec, okc, mc, gc, oc⟩ hout hlen
    simp only [List.length_cons] at hlen
    have hne : ec ≠ 10 := by omega
    have hstep := ih
      { port := port, peer := peer, error_clock := ec + 1, ok_clock := okc,
        miss_counter := mc + 1, got_counter := gc, other_counter := oc }
      (fun e he => hout e (List.mem_cons_of_mem _ he))
      (by show ec + 1 + rest.length ≤ 10; omega)
    rw [run_rounds, run_round_no_recovery _ _ _ _ _ hne,
      hout env (List.mem_cons_self _ _), ping_phase_none]
    show run_rounds our_id peer_id remote rest
      { port := port, peer := peer, error_clock := ec + 1, ok_clock := okc,
        miss_counter := mc + 1, got_counter := gc, other_counter := oc } = _
    rw [hstep]
    simp only [StepResult.ok.injEq, LoopState.mk.injEq, List.length_cons,
      true_and, and_true, eq_self_iff_true]
    omega

theorem prepare_socket_first_free (status : Nat → Option Nat) (fuel port : Nat)
    (hfree : status port = none) (hfuel : 0 < fuel) :
    prepare_socket status fuel port = .bound port := by
  cases fuel with
  | zero => omega
  | succ f => rw [prepare_socket, hfree]

theorem recovery_phase_fires (our_id peer_id : PyStr) (remote : Addr)
    (env : RoundEnv) (st : LoopState) (p : Nat) (newPeer : Addr)
    (h10 : st.error_clock = 10)
    (hbind : prepare_socket env.bindStatus env.bindFuel (st.port + 1) = .bound p)
    (hdisc : (first_peer_fetch our_id peer_id remote env.fetchEvents).2 = .done newPeer) :
    recovery_phase our_id peer_id remote env st
      = .ok { st with port := p, peer := newPeer, error_clock := 0 } := by
  unfold recovery_phase
  rw [if_pos h10, hbind, hdisc]



/-! ### Claims -/

/-- C1: in the keepalive session, after exactly 10 consecutive rounds
classified as miss (with no intervening hit or peer-update) starting from a
clean streak, the miss streak stands at 10 with nothing else changed, and
the next round's recovery check rebinds the socket to the current local
port + 1 (requesting exactly that port; it is granted when free), re-runs
Discover against the introducer exactly once to refresh the peer Endpoint,
and resets the miss streak to 0. -/
theorem recovery_after_ten_misses
    (our_id peer_id : PyStr) (remote : Addr) (st : LoopState)
    (envs : List RoundEnv) (env : RoundEnv) (newPeer : Addr)
    (h0 : st.error_clock = 0) (hlen : envs.length = 10)
    (hmiss : ∀ e ∈ envs, e.outcome = none)
    (hfree : env.bindStatus (st.port + 1) = none)
    (hfuel : 0 < env.bindFuel)
    (hdisc : (first_peer_fetch our_id peer_id remote env.fetchEvents).2 = .done newPeer) :
    run_rounds our_id peer_id remote envs st
      = .ok { st with error_clock := 10, miss_counter := st.miss_counter + 10 } ∧
    recovery_phase our_id peer_id remote env
        { st with error_clock := 10, miss_counter := st.miss_counter + 10 }
      = .ok { st with port := st.port + 1, peer := newPeer, error_clock := 0,
                      miss_counter := st.miss_counter + 10 } := by
  constructor
  · have h := run_rounds_misses our_id peer_id remote envs st hmiss (by omega)
    rw [h]
    simp [hlen, h0]
  · exact recovery_phase_fires our_id peer_id remote env _ _ newPeer rfl
      (prepare_socket_first_free env.bindStatus env.bindFuel (st.port + 1) hfree hfuel)
      hdisc

/-- C1 witness: the recovery trigger evaluated on a concrete ten-miss run. -/
theorem recovery_after_ten_misses_witness :
    run_rounds (str "a") (str "b") remoteW (List.replicate 10 missEnvW)
        (init_state 7 (str "p", 2))
      = .ok { port := 7, peer := (str "p", 2), error_clock := 10, ok_clock := 0,
              miss_counter := 10, got_counter := 0, other_counter := 0 } ∧
    recovery_phase (str "a") (str "b") remoteW recEnvW
        { port := 7, peer := (str "p", 2), error_clock := 10, ok_clock := 0,
          miss_counter := 10, got_counter := 0, other_counter := 0 }
      = .ok { port := 8, peer := (str "3.3.3.3", 4), error_clock := 0, ok_clock := 0,
              miss_counter := 10, got_counter := 0, other_counter := 0 } :=
  recovery_after_ten_misses (str "a") (str "b") remoteW (init_state 7 (str "p", 2))
    (List.replicate 10 missEnvW) recEnvW (str "3.3.3.3", 4)
    (by decide) (by decide) (by decide) (by decide) (by decide) (by decide)

/-- C2: Discover repeats the pair {send one JOIN to the introducer; wait up
to 2 seconds} once per round without bound; a round whose datagram comes
from any sender other than the introducer is ignored and the loop
continues, so a trace with no datagram from the introducer leaves the loop
still pending after sending one JOIN per round; the first datagram from the
introducer is accepted, decoded with `parse_server_msg`, its "our endpoint"
half discarded, and its peer half returned. -/
theorem discover_loop_spec :
    fetch_wait_seconds = 2 ∧
    (∀ our_id peer_id : PyStr, ∀ remote : Addr, ∀ events : List RecvEvent,
      (∀ e ∈ events, fromRemote remote e = false) →
      first_peer_fetch our_id peer_id remote events
        = (List.replicate events.length (make_peer_req our_id peer_id, remote),
           .pending)) ∧
    (∀ our_id peer_id : PyStr, ∀ remote : Addr, ∀ pre rest : List RecvEvent,
      ∀ msg : PyStr, ∀ our peer : Addr,
      (∀ e ∈ pre, fromRemote remote e = false) →
      parse_server_msg msg = some (our, peer) →
      first_peer_fetch our_id peer_id remote (pre ++ some (msg, remote) :: rest)
        = (List.replicate (pre.length + 1) (make_peer_req our_id peer_id, remote),
           .done peer)) := by
  refine ⟨rfl, ?_, ?_⟩
  · intro our_id peer_id remote events hother
    induction events with
    | nil => rfl
    | cons ev rest ih =>
      have hrest := ih (fun e he => hother e (List.mem_cons_of_mem _ he))
      rcases ev with _ | ⟨msg, sender⟩
      · rw [first_peer_fetch_cons_none, hrest]
        rfl
      · have hne : sender ≠ remote :=
          fromRemote_false remote msg sender (hother _ (List.mem_cons_self _ _))
        rw [first_peer_fetch_cons_other _ _ _ _ _ _ hne, hrest]
        rfl
  · intro our_id peer_id remote pre rest msg our peer hother hparse
    induction pre with
    | nil =>
      rw [List.nil_append, first_peer_fetch_cons_accept, hparse]
      rfl
    | cons ev pres ih =>
      have hrest := ih (fun e he => hother e (List.mem_cons_of_mem _ he))
      rcases ev with _ | ⟨m, sender⟩
      · rw [List.cons_append, first_peer_fetch_cons_none, hrest]
        rfl
      · have hne : sender ≠ remote :=
          fromRemote_false remote m sender (hother _ (List.mem_cons_self _ _))
        rw [List.cons_append, first_peer_fetch_cons_other _ _ _ _ _ _ hne, hrest]
        rfl

/-- C2 witness: the discovery loop evaluated on a trace with one foreign
datagram, one timeout, then the introducer's reply. -/
theorem discover_loop_spec_witness :
    first_peer_fetch (str "a") (str "b") remoteW
        ([some (str "x", (str "q", 9)), none] ++ some (srvMsgW, remoteW) :: [])
      = (List.replicate 3 (make_peer_req (str "a") (str "b"), remoteW),
         .done (str "3.3.3.3", 4)) :=
  discover_loop_spec.2.2 (str "a") (str "b") remoteW
    [some (str "x", (str "q", 9)), none] [] srvMsgW (str "1.1.1.1", 2) (str "3.3.3.3", 4)
    (by decide) (by decide)

/-- C3: keepalive round classification is address-exact: a datagram from a
sender equal to neither the current peer nor the introducer classifies as
"other" and leaves the miss streak (and everything except the other
counter) unchanged; a datagram from the peer resets the miss streak to 0
and increments the ok streak; a round with no datagram increments the miss
streak by exactly 1. -/
theorem round_classification_exact (remote : Addr) (st : LoopState)
    (msg : PyStr) (sender : Addr) :
    (sender ≠ st.peer → sender ≠ remote →
      ping_phase remote (some (msg, sender)) st
        = .ok { st with other_counter := st.other_counter + 1 }) ∧
    (sender = st.peer →
      ping_phase remote (some (msg, sender)) st
        = .ok { st with error_clock := 0, ok_clock := st.ok_clock + 1,
                        got_counter := st.got_counter + 1 }) ∧
    ping_phase remote none st
      = .ok { st with error_clock := st.error_clock + 1,
                      miss_counter := st.miss_counter + 1 } := by
  refine ⟨?_, ?_, rfl⟩
  · intro h1 h2
    show (if sender = st.peer then _ else _) = _
    rw [if_neg h1, if_neg h2]
  · intro h
    show (if sender = st.peer then _ else _) = _
    rw [if_pos h]

/-- C3 witness: the three classifications evaluated on concrete rounds. -/
theorem round_classification_exact_witness :
    ping_phase remoteW (some (str "x", (str "q", 3))) (init_state 7 (str "p", 2))
      = .ok { port := 7, peer := (str "p", 2), error_clock := 0, ok_clock := 0,
              miss_counter := 0, got_counter := 0, other_counter := 1 } ∧
    ping_phase remoteW (some (str "x", (str "p", 2))) (init_state 7 (str "p", 2))
      = .ok { port := 7, peer := (str "p", 2), error_clock := 0, ok_clock := 1,
              miss_counter := 0, got_counter := 1, other_counter := 0 } ∧
    ping_phase remoteW none (init_state 7 (str "p", 2))
      = .ok { port := 7, peer := (str "p", 2), error_clock := 1, ok_clock := 0,
              miss_counter := 1, got_counter := 0, other_counter := 0 } :=
  ⟨(round_classification_exact remoteW (init_state 7 (str "p", 2)) (str "x")
      (str "q", 3)).1 (by decide) (by decide),
   (round_classification_exact remoteW (init_state 7 (str "p", 2)) (str "x")
      (str "p", 2)).2.1 (by decide),
   (round_classification_exact remoteW (init_state 7 (str "p", 2)) (str "x")
      (str "p", 2)).2.2⟩

/-! ### Branch lemmas for `ping_phase`, `recovery_phase`, `prepare_socket` -/

theorem ping_phase_hit (remote : Addr) (st : LoopState) (msg : PyStr) (sender : Addr)
    (h : sender = st.peer) :
    ping_phase remote (some (msg, sender)) st
      = .ok { st with error_clock := 0, ok_clock := st.ok_clock + 1,
                      got_counter := st.got_counter + 1 } := by
  show (if sender = st.peer then _ else _) = _
  rw [if_pos h]

theorem ping_phase_other (remote : Addr) (st : LoopState) (msg : PyStr) (sender : Addr)
    (h1 : sender ≠ st.peer) (h2 : sender ≠ remote) :
    ping_phase remote (some (msg, sender)) st
      = .ok { st with other_counter := st.other_counter + 1 } := by
  show (if sender = st.peer then _ else _) = _
  rw [if_neg h1, if_neg h2]

theorem ping_phase_update (remote : Addr) (st : LoopState) (msg : PyStr)
    (hne : st.peer ≠ remote) :
    ping_phase remote (some (msg, remote)) st
      = (match parse_server_msg msg with
         | none => .fault
         | some x =>
           .ok { st with peer := x.2, other_counter := st.other_counter + 1 }) := by
  show (if remote = st.peer then _ else _) = _
  rw [if_neg (fun hh => hne hh.symm), if_pos rfl]
  rcases hp : parse_server_msg msg with _ | ⟨a, b⟩ <;> rfl

theorem recovery_phase_skip (our_id peer_id : PyStr) (remote : Addr)
    (env : RoundEnv) (st : LoopState) (hne : st.error_clock ≠ 10) :
    recovery_phase our_id peer_id remote env st = .ok st := by
  unfold recovery_phase
  rw [if_neg hne]

theorem recovery_phase_result (our_id peer_id : PyStr) (remote : Addr)
    (env : RoundEnv) (st : LoopState) (h10 : st.error_clock = 10) :
    recovery_phase our_id peer_id remote env st
      = (match prepare_socket env.bindStatus env.bindFuel (st.port + 1) with
         | .nofuel => .stuck
         | .err _e => .fault
         | .bound p =>
           match (first_peer_fetch our_id peer_id remote env.fetchEvents).2 with
           | .pending => .stuck
           | .fault => .fault
           | .done newPeer =>
             .ok { st with port := p, peer := newPeer, error_clock := 0 }) := by
  unfold recovery_phase
  rw [if_pos h10]

theorem prepare_socket_busy (status : Nat → Option Nat) (fuel port : Nat)
    (h : status port = some 48) :
    prepare_socket status (fuel + 1) port = prepare_socket status fuel (port + 1) := by
  rw [prepare_socket, h]
  rfl

theorem prepare_socket_err_step (status : Nat → Option Nat) (fuel port e : Nat)
    (h : status port = some e) (hne : e ≠ 48) :
    prepare_socket status (fuel + 1) port = .err e := by
  rw [prepare_socket, h]
  show (if e = 48 then _ else _) = _
  rw [if_neg hne]

/-- C4 counterexample: in a state where the believed peer equals the
introducer's address, a datagram from the introducer is classified as a hit
(code checks `addr == peer` first), so the peer is NOT replaced by the
decoded peer half and the miss streak is reset rather than left unchanged. -/
theorem peer_update_shadowed_counterexample :
    parse_server_msg srvMsgW = some ((str "1.1.1.1", 2), (str "3.3.3.3", 4)) ∧
    ping_phase remoteW (some (srvMsgW, remoteW))
        { port := 7, peer := remoteW, error_clock := 3, ok_clock := 0,
          miss_counter := 3, got_counter := 0, other_counter := 0 }
      = .ok { port := 7, peer := remoteW, error_clock := 0, ok_clock := 1,
              miss_counter := 3, got_counter := 1, other_counter := 0 } ∧
    remoteW ≠ ((str "3.3.3.3", 4) : Addr) ∧ (0 : Nat) ≠ 3 := by decide

/-- C4 (amended): for every keepalive round in which a datagram arrives
whose sender equals the introducer, provided the current believed peer is
not itself the introducer's address (otherwise the round classifies as a
hit), the believed peer Endpoint is replaced by the peer half of the
decoded server message — in effect for the very next ping — and the miss
streak is left unchanged by this classification. -/
theorem peer_update_applies (remote : Addr) (st : LoopState) (msg : PyStr)
    (our newPeer : Addr) (hne : st.peer ≠ remote)
    (hparse : parse_server_msg msg = some (our, newPeer)) :
    ping_phase remote (some (msg, remote)) st
      = .ok { st with peer := newPeer, other_counter := st.other_counter + 1 } ∧
    ping_dest { st with peer := newPeer, other_counter := st.other_counter + 1 }
      = newPeer := by
  refine ⟨?_, rfl⟩
  rw [ping_phase_update remote st msg hne, hparse]

/-- C4 witness: the peer-address update evaluated on a concrete round. -/
theorem peer_update_applies_witness :
    ping_phase remoteW (some (srvMsgW, remoteW)) (init_state 7 (str "p", 2))
      = .ok { port := 7, peer := (str "3.3.3.3", 4), error_clock := 0, ok_clock := 0,
              miss_counter := 0, got_counter := 0, other_counter := 1 } ∧
    ping_dest { port := 7, peer := (str "3.3.3.3", 4), error_clock := 0, ok_clock := 0,
                miss_counter := 0, got_counter := 0, other_counter := 1 }
      = (str "3.3.3.3", 4) :=
  peer_update_applies remoteW (init_state 7 (str "p", 2)) srvMsgW (str "1.1.1.1", 2)
    (str "3.3.3.3", 4) (by decide) (by decide)

/-- C5: on every exit path of the session — whatever `main_loop` produced
(normal completion of the 100 rounds, an uncaught fault, or a stuck
sub-loop) — the `finally` clause invokes Leave exactly once, sending a
single EXIT datagram `EXIT#{our_id}@{peer_id}` to the introducer, with no
retry and nothing received or awaited afterwards. -/
theorem leave_exactly_once_every_path :
    ∀ our_id peer_id : PyStr, ∀ remote : Addr, ∀ port0 : Nat,
      ∀ fetchEvents : List RecvEvent, ∀ envs : List RoundEnv,
      (main_model our_id peer_id remote port0 fetchEvents envs).exitSends
        = [(exit_req our_id peer_id, remote)] ∧
      (main_model our_id peer_id remote port0 fetchEvents envs).exitSends.length = 1 ∧
      exit_req our_id peer_id = str "EXIT#" ++ our_id ++ str "@" ++ peer_id :=
  fun _ _ _ _ _ _ => ⟨rfl, rfl, rfl⟩

/-- C6 counterexample: `ok_clock` is never reset.  After a hit round
followed by a miss round (the success streak is broken), `ok_clock` still
holds 1, not the 0 that a consecutive-successes counter would hold. -/
theorem ok_streak_not_reset_counterexample :
    run_rounds (str "a") (str "b") remoteW [hitEnvW, missEnvW] (init_state 7 (str "p", 2))
      = .ok { port := 7, peer := (str "p", 2), error_clock := 1, ok_clock := 1,
              miss_counter := 1, got_counter := 1, other_counter := 0 } ∧
    (1 : Nat) ≠ 0 := by decide

/-- C6 (amended): `ok_clock` increments by 1 on every hit round and is
never reset by any other round outcome or by recovery: it holds the
cumulative number of hit rounds of the session, not the length of the
current streak of consecutive successes. -/
theorem ok_clock_counts_hits :
    (∀ remote : Addr, ∀ outcome : RecvEvent, ∀ st st' : LoopState,
      ping_phase remote outcome st = .ok st' →
      ((∃ m, outcome = some (m, st.peer)) → st'.ok_clock = st.ok_clock + 1) ∧
      ((∀ m, outcome ≠ some (m, st.peer)) → st'.ok_clock = st.ok_clock)) ∧
    (∀ our_id peer_id : PyStr, ∀ remote : Addr, ∀ env : RoundEnv,
      ∀ st st' : LoopState,
      recovery_phase our_id peer_id remote env st = .ok st' →
      st'.ok_clock = st.ok_clock) := by
  constructor
  · intro remote outcome st st' h
    rcases outcome with _ | ⟨msg, sender⟩
    · have h' : StepResult.ok
          { st with error_clock := st.error_clock + 1,
                    miss_counter := st.miss_counter + 1 } = StepResult.ok st' := h
      have hst := StepResult.ok.inj h'
      constructor
      · rintro ⟨m, hm⟩
        exact Option.noConfusion hm
      · intro _
        rw [← hst]
    · by_cases hs : sender = st.peer
      · rw [ping_phase_hit remote st msg sender hs] at h
        have hst := StepResult.ok.inj h
        constructor
        · intro _
          rw [← hst]
        · intro hno
          exact absurd (by rw [hs]) (hno msg)
      · constructor
        · rintro ⟨m, hm⟩
          obtain ⟨he1, he2⟩ := Prod.mk.injEq _ _ _ _ ▸ Option.some.inj hm
          exact absurd he2 hs
        · intro _
          by_cases hr : sender = remote
          · subst hr
            have hpne : st.peer ≠ sender := fun he => hs he.symm
            rw [ping_phase_update sender st msg hpne] at h
            rcases hp : parse_server_msg msg with _ | x
            · rw [hp] at h
              exact StepResult.noConfusion h
            · rw [hp] at h
              have hst := StepResult.ok.inj h
              rw [← hst]
          · rw [ping_phase_other remote st msg sender hs hr] at h
            have hst := StepResult.ok.inj h
            rw [← hst]
  · intro our_id peer_id remote env st st' h
    by_cases h10 : st.error_clock = 10
    · rw [recovery_phase_result our_id peer_id remote env st h10] at h
      rcases hb : prepare_socket env.bindStatus env.bindFuel (st.port + 1)
        with p | e | _ <;> rw [hb] at h
      · rcases hf : (first_peer_fetch our_id peer_id remote env.fetchEvents).2
          with _ | _ | np <;> rw [hf] at h
        · exact StepResult.noConfusion h
        · exact StepResult.noConfusion h
        · have hst := StepResult.ok.inj h
          rw [← hst]
      · exact StepResult.noConfusion h
      · exact StepResult.noConfusion h
    · rw [recovery_phase_skip our_id peer_id remote env st h10] at h
      have hst := StepResult.ok.inj h
      rw [← hst]

/-- C6 witness: the hit-increment case of the amended claim evaluated on a
concrete hit round. -/
theorem ok_clock_counts_hits_witness :
    ({ port := 7, peer := (str "p", 2), error_clock := 0, ok_clock := 1,
       miss_counter := 0, got_counter := 1, other_counter := 0 } : LoopState).ok_clock
      = (init_state 7 (str "p", 2)).ok_clock + 1 :=
  (ok_clock_counts_hits.1 remoteW (some (str "x", (str "p", 2)))
      (init_state 7 (str "p", 2))
      { port := 7, peer := (str "p", 2), error_clock := 0, ok_clock := 1,
        miss_counter := 0, got_counter := 1, other_counter := 0 }
      (by decide)).1 ⟨str "x", rfl⟩

/-- C7: when bind fails with `errno` 48 (port in use), the Socket Manager
retries with the next port, and the next, until one binds, reporting the
port finally bound (so a run of `k` occupied ports starting at the
requested one yields `port + k`); a bind failure with any other `errno`
propagates immediately. -/
theorem bind_retry_policy :
    (∀ status : Nat → Option Nat, ∀ k : Nat, ∀ port : Nat,
      (∀ j, j < k → status (port + j) = some 48) → status (port + k) = none →
      ∀ fuel, k < fuel → prepare_socket status fuel port = .bound (port + k)) ∧
    (∀ status : Nat → Option Nat, ∀ port fuel e : Nat,
      status port = some e → e ≠ 48 →
      prepare_socket status (fuel + 1) port = .err e) := by
  constructor
  · intro status k
    induction k with
    | zero =>
      intro port hbusy hfree fuel hfuel
      have h := prepare_socket_first_free status fuel port (by simpa using hfree) hfuel
      simpa using h
    | succ k ih =>
      intro port hbusy hfree fuel hfuel
      cases fuel with
      | zero => omega
      | succ f =>
        have hb : status port = some 48 := by simpa using hbusy 0 (by omega)
        rw [prepare_socket_busy status f port hb]
        rw [show port + (k + 1) = port + 1 + k from by omega]
        exact ih (port + 1)
          (fun j hj => by
            rw [show port + 1 + j = port + (j + 1) from by omega]
            exact hbusy (j + 1) (by omega))
          (by
            rw [show port + 1 + k = port + (k + 1) from by omega]
            exact hfree)
          f (by omega)
  · intro status port fuel e hstat hne
    exact prepare_socket_err_step status fuel port e hstat hne

/-- C7 witness: requesting occupied port 9990 binds 9991; a non-48 `errno`
propagates. -/
theorem bind_retry_policy_witness :
    prepare_socket (fun p => if p = 9990 then some 48 else none) 2 9990
      = .bound 9991 ∧
    prepare_socket (fun _ => some 13) 1 9990 = .err 13 :=
  ⟨bind_retry_policy.1 (fun p => if p = 9990 then some 48 else none) 1 9990
      (fun j hj => by interval_cases j; decide) (by decide) 2 (by decide),
   bind_retry_policy.2 (fun _ => some 13) 9990 0 13 rfl (by decide)⟩

/-- C8 counterexample: `"1:2:3"` contains a colon and the segment after its
last colon is the valid non-negative integer `3`, so the claim says
`parse_addr` splits there and succeeds with `("1:2", 3)`; the code's
two-name unpacking of `split(":")` raises instead (three fields), so
`parse_addr` fails. -/
theorem parse_addr_exactly_when_counterexample :
    (':' ∈ str "1:2:3") ∧ pyInt (str "3") = some 3 ∧
    parse_addr (str "1:2:3") = none := by decide

/-- C8 (amended): `parse_addr` splits on the colon and returns the
`(host, port)` pair — `parse_addr "1.2.3.4:9990" = some ("1.2.3.4", 9990)` —
succeeding exactly when the input contains exactly one colon and the
segment after it is a valid Python integer literal (optional sign, decimal
digits, underscore grouping); in particular a string with two or more
colons fails (there is no last-colon splitting), and a negative port
segment such as `"h:-1"` is accepted, so "not a valid non-negative integer"
is not a failure condition. -/
theorem parse_addr_characterization :
    parse_addr (str "1.2.3.4:9990") = some (str "1.2.3.4", 9990) ∧
    parse_addr (str "bad") = none ∧
    parse_addr (str "h:-1") = some (str "h", -1) ∧
    (∀ s h : PyStr, ∀ p : Int,
      parse_addr s = some (h, p) ↔
        ':' ∉ h ∧ ∃ t, s = h ++ ':' :: t ∧ ':' ∉ t ∧ pyInt t = some p) :=
  ⟨by decide, by decide, by decide, parse_addr_some_iff⟩

/-- C9 counterexample: the endpoint `("a:b", 1)` formats to `"a:b:1"`,
which `parse_addr` rejects (two colons), so the unrestricted round-trip
fails. -/
theorem roundtrip_counterexample :
    parse_addr (formatAddr (str "a:b", 1)) ≠ some (str "a:b", 1) := by decide

/-- C9 (amended): for every Endpoint `(host, port)` whose host contains no
colon (ports, including negative ones, are unrestricted), parsing the
formatted `"host:port"` string yields the endpoint again:
`parse_addr (formatAddr e) = some e`. -/
theorem formatAddr_roundtrip (host : PyStr) (p : Int) (hh : ':' ∉ host) :
    parse_addr (formatAddr (host, p)) = some (host, p) :=
  (parse_addr_some_iff _ _ _).mpr
    ⟨hh, intDecimal p, rfl, colon_not_mem_intDecimal p, pyInt_intDecimal p⟩

/-- C9 witness: the round-trip evaluated at `("1.2.3.4", 9990)`. -/
theorem formatAddr_roundtrip_witness :
    parse_addr (formatAddr (str "1.2.3.4", 9990)) = some (str "1.2.3.4", 9990) :=
  formatAddr_roundtrip (str "1.2.3.4") 9990 (by decide)



/-- C10: the teardown EXIT always leaves from the socket bound at startup:
`main`'s socket variable is never reassigned, so `disconnect` uses the
startup port on every run — including a concrete 100-round run in which the
keepalive loop rebinds mid-run (its final state sits on port 9991) while
the EXIT still leaves from the startup port 9990. -/
theorem exit_from_startup_socket :
    (∀ our_id peer_id : PyStr, ∀ remote : Addr, ∀ port0 : Nat,
      ∀ fe : List RecvEvent, ∀ envs : List RoundEnv,
      (main_model our_id peer_id remote port0 fe envs).exitSrcPort = port0) ∧
    (main_model (str "a") (str "b") remoteW 9990 fetchW envsRebindW).loopResult
      = .ok { port := 9991, peer := (str "4.4.4.4", 5), error_clock := 0,
              ok_clock := 90, miss_counter := 10, got_counter := 90,
              other_counter := 0 } ∧
    (main_model (str "a") (str "b") remoteW 9990 fetchW envsRebindW).exitSrcPort
      = 9990 := by
  refine ⟨fun _ _ _ _ _ _ => rfl, ?_, rfl⟩
  decide
